import Mathlib

/-!
Verification of `print_pdfs_win.py`.

A shallow embedding of the batch PDF print orchestrator
(`src/print_pdfs_win.py`, Windows / SumatraPDF) together with proofs of the
behavioural properties stated in its design specification.

Modelling conventions:
* The filesystem under the scanned folder is a list of `FSEntry` values
  (relative path components plus a file/directory flag).
* The external collaborators excluded by the spec (helper discovery, default
  printer query, the helper process itself) are oracle inputs in `World`.
* Python strings are Lean `String`s; `os.path.normcase` and `str.lower` are
  modelled at the ASCII level (`Char.toLower`), which covers every string the
  program itself manufactures.
* `fnmatch.fnmatch` (stdlib) is modelled by compiling the glob pattern to a
  token list (`parseGlob`, faithful to `fnmatch.translate`: `*`, `?`,
  `[...]` classes with `!` negation and `-` ranges, an unterminated `[` is a
  literal) and matching tokens against the name (`tokMatch`; `*` matches any
  suffix split, as the compiled regex `.*` does).
-/

/-! ## Characters and case normalisation -/

/-- Model of Python `os.path.normcase` on Windows: forward slashes become
backslashes and letters are lowercased (ASCII model of `str.lower`). -/
def normcase (s : String) : String :=
  String.mk (s.data.map (fun c => if c = '/' then '\\' else c.toLower))

/-- ASCII model of Python `str.lower`, used by `pathlib` path ordering. -/
def strLower (s : String) : String :=
  String.mk (s.data.map Char.toLower)

/-! ## Glob pattern matching (model of `fnmatch`) -/

/-- One compiled token of a glob pattern, mirroring what
`fnmatch.translate` emits: `.*`, `.`, a literal character, or a character
class (with negation flag). -/
inductive GlobTok where
  | star : GlobTok
  | anyChar : GlobTok
  | lit : Char → GlobTok
  | cls : Bool → List Char → GlobTok
deriving DecidableEq

/-- Does character `c` belong to the body of a character class?  A `-`
between two characters denotes a code-point range, as in the regex class
`fnmatch.translate` produces. -/
def inClass : List Char → Char → Bool
  | [], _ => false
  | a :: '-' :: b :: rest, c =>
    (decide (a ≤ c) && decide (c ≤ b)) || inClass rest c
  | a :: rest, c => (a == c) || inClass rest c

/-- Scan a character-class body up to the closing `]`; `none` when the
class is unterminated. Returns the body and the remainder of the pattern. -/
def scanClass : List Char → Option (List Char × List Char)
  | [] => none
  | ']' :: rest => some ([], rest)
  | c :: rest =>
    match scanClass rest with
    | some (content, rest2) => some (c :: content, rest2)
    | none => none

/-- A `]` directly after the opening `[` (or after `[!`) is part of the
class body, as in `fnmatch.translate`. -/
def classBody (ps : List Char) : Option (List Char × List Char) :=
  match ps with
  | ']' :: t =>
    match scanClass t with
    | some (content, rest) => some (']' :: content, rest)
    | none => none
  | _ => scanClass ps

/-- Split the pattern just after an opening `[` into negation flag, class
body and remaining pattern; `none` when the class is unterminated (the `[`
is then a literal, as in `fnmatch.translate`). -/
def splitClass (ps : List Char) : Option (Bool × List Char × List Char) :=
  match ps with
  | '!' :: t => (classBody t).map (fun p => (true, p.1, p.2))
  | _ => (classBody ps).map (fun p => (false, p.1, p.2))

/-- Compile a glob pattern to tokens.  The fuel argument (instantiated with
the pattern length, which every step strictly decreases) keeps the
recursion structural. -/
def parseGlobAux : Nat → List Char → List GlobTok
  | 0, _ => []
  | _ + 1, [] => []
  | fuel + 1, '*' :: ps => .star :: parseGlobAux fuel ps
  | fuel + 1, '?' :: ps => .anyChar :: parseGlobAux fuel ps
  | fuel + 1, '[' :: ps =>
    match splitClass ps with
    | some (neg, content, rest) => .cls neg content :: parseGlobAux fuel rest
    | none => .lit '[' :: parseGlobAux fuel ps
  | fuel + 1, c :: ps => .lit c :: parseGlobAux fuel ps

/-- Compile a glob pattern to tokens (entry point). -/
def parseGlob (l : List Char) : List GlobTok := parseGlobAux l.length l

/-- Match compiled glob tokens against a character list.  `star` matches
when some suffix of the input matches the remaining tokens, which is the
backtracking semantics of the regex `.*` that `fnmatch` compiles to. -/
def tokMatch : List GlobTok → List Char → Bool
  | [], cs => cs.isEmpty
  | .star :: ts, cs => cs.tails.any (fun suffix => tokMatch ts suffix)
  | .anyChar :: ts, cs =>
    match cs with
    | [] => false
    | _ :: cs2 => tokMatch ts cs2
  | .lit p :: ts, cs =>
    match cs with
    | [] => false
    | c :: cs2 => (p == c) && tokMatch ts cs2
  | .cls neg content :: ts, cs =>
    match cs with
    | [] => false
    | c :: cs2 => (inClass content c != neg) && tokMatch ts cs2

/-- Model of Python `fnmatch.fnmatch(name, pat)`: both sides are
`os.path.normcase`d, then the translated pattern must match the whole
name. -/
def fnmatch (name pat : String) : Bool :=
  tokMatch (parseGlob (normcase pat).data) (normcase name).data

/-! ## The filesystem model and `list_pdfs` -/

/-- One filesystem object below the scanned folder: its path components
relative to the folder, and whether it is a regular file. -/
structure FSEntry where
  parts : List String
  isFile : Bool
deriving DecidableEq

/-- Model of `path.name`: the last path component. -/
def baseName (e : FSEntry) : String := e.parts.getLastD ""

/-- Model of `str(path)` for an entry below `folder` (Windows separator). -/
def fullPath (folder : String) (e : FSEntry) : String :=
  folder ++ "\\" ++ String.intercalate "\\" e.parts

/-- Strict lexicographic comparison of character lists by code point,
Python's string `<`. -/
def charListLt : List Char → List Char → Bool
  | [], [] => false
  | [], _ :: _ => true
  | _ :: _, [] => false
  | a :: as, b :: bs =>
    if a.toNat < b.toNat then true
    else if b.toNat < a.toNat then false
    else charListLt as bs

/-- Character-level model of Python `str.split` on the Windows separator
`\`; the first argument accumulates the current component in reverse. -/
def splitBSAux : List Char → List Char → List String
  | acc, [] => [String.mk acc.reverse]
  | acc, '\\' :: rest => String.mk acc.reverse :: splitBSAux [] rest
  | acc, c :: rest => splitBSAux (c :: acc) rest

/-- Model of the key CPython orders `WindowsPath` by: the lowercased path
string split on the separator (`_parts_normcase` in CPython 3.12; earlier
versions compare the case-normalised parts list `_cparts`, which orders
paths under a common folder identically). -/
def pathPartsNormcase (p : String) : List String :=
  splitBSAux [] (strLower p).data

/-- Lexicographic comparison of component lists, elements compared as
Python strings by code point (Python list `<=` semantics). -/
def strListLe : List String → List String → Bool
  | [], _ => true
  | _ :: _, [] => false
  | x :: xs, y :: ys =>
    if charListLt x.data y.data then true
    else if charListLt y.data x.data then false
    else strListLe xs ys

/-- Model of `WindowsPath` ordering (used by `sorted`): paths compare by
their case-normalised parts lists. -/
def pathLe (a b : String) : Bool :=
  strListLe (pathPartsNormcase a) (pathPartsNormcase b)

/-- Model of `folder.glob("*.pdf")` (non-recursive: immediate children
only) and `folder.glob("**/*.pdf")` (recursive: any depth).  `pathlib`
matches each candidate's name against the `*.pdf` component
case-insensitively on Windows, which `fnmatch` captures. -/
def globPdf (fs : List FSEntry) (recursive : Bool) : List FSEntry :=
  if recursive then
    fs.filter (fun e => !e.parts.isEmpty && fnmatch (baseName e) "*.pdf")
  else
    fs.filter (fun e => e.parts.length == 1 && fnmatch (baseName e) "*.pdf")

/-- The inner helper `matches_any` of `list_pdfs`: does the base name match
any of the patterns? -/
def matches_any (e : FSEntry) (patterns : List String) : Bool :=
  patterns.any (fun p => fnmatch (baseName e) p)

/-- Model of `list_pdfs(folder, recursive, include_patterns,
exclude_patterns)`.  `sorted` is modelled by a stable insertion sort, which
agrees with Python's stable sort on the (total, transitive) path order.
Python truthiness of the optional pattern lists (`None` and `[]` both skip
the filter) is rendered through `Option.getD []` plus an emptiness test. -/
def list_pdfs (folder : String) (fs : List FSEntry) (recursive : Bool)
    (include_patterns exclude_patterns : Option (List String)) : List FSEntry :=
  let files0 := List.insertionSort
    (fun a b => pathLe (fullPath folder a) (fullPath folder b) = true)
    (globPdf fs recursive)
  let files1 := files0.filter (fun f => f.isFile)
  let incl := include_patterns.getD []
  let files2 := if incl.isEmpty then files1 else files1.filter (fun f => matches_any f incl)
  let excl := exclude_patterns.getD []
  if excl.isEmpty then files2 else files2.filter (fun f => !matches_any f excl)

/-! ## The settings encoder -/

/-- The `duplex_map` dict of `build_sumatra_print_settings`
(`dict.get` yields `None` for unknown keys). -/
def duplex_map (d : String) : Option String :=
  if d = "default" then none
  else if d = "simplex" then some "simplex"
  else if d = "duplex" then some "duplex"
  else if d = "long-edge" then some "duplexlong"
  else if d = "short-edge" then some "duplexshort"
  else if d = "tumble" then some "duplexshort"
  else none

/-- The `color_map` dict of `build_sumatra_print_settings`. -/
def color_map (c : String) : Option String :=
  if c = "default" then none
  else if c = "color" then some "color"
  else if c = "mono" then some "monochrome"
  else none

/-- Model of `build_sumatra_print_settings(duplex, color, pages, copies)`.
Python truthiness: `if pages:` is false for `None` and for `""`;
`if d:` on the looked-up map value is equivalent to `isSome` because no map
value is the empty string; `if copies and copies > 1:` is the conjunction
of `copies != 0` and `copies > 1`. -/
def build_sumatra_print_settings (duplex color : String) (pages : Option String)
    (copies : Int) : Option String :=
  let parts : List String := []
  let parts := if pages.getD "" ≠ "" then parts ++ [pages.getD ""] else parts
  let parts :=
    match duplex_map duplex with
    | some d => parts ++ [d]
    | none => parts
  let parts :=
    match color_map color with
    | some c => parts ++ [c]
    | none => parts
  let parts :=
    if copies ≠ 0 ∧ copies > 1 then parts ++ [toString copies ++ "x"] else parts
  if parts ≠ [] then some (String.intercalate "," parts) else none

/-! ## The dispatcher and orchestrator (`print_with_sumatra`, `main`) -/

/-- Behaviour of one `subprocess.run` invocation of the helper: the process
ran and exited with a code, or the call raised (launch failure such as
`FileNotFoundError` / `PermissionError`, or any other exception). -/
inductive HelperResult where
  | exited : Int → HelperResult
  | raised : HelperResult
deriving DecidableEq

/-- The Python exceptions distinguished by the per-file `except` clauses:
`subprocess.CalledProcessError` (carrying the exit code) versus any other
`Exception`. -/
inductive PyError where
  | calledProcessError : Int → PyError
  | otherException : PyError
deriving DecidableEq

/-- Per-file job outcome, as reported by the per-file loop of `main`. -/
inductive Outcome where
  | printed : Outcome
  | dryRunSkipped : Outcome
  | failedExit : Int → Outcome
  | failedOther : Outcome
deriving DecidableEq

/-- The fixed helper command line built by `print_with_sumatra`:
`<exe> -print-to <printer> -silent -exit-on-print
[-print-settings <tokens>] <file>`.  (`if print_settings:` is Python
truthiness, false for `None` and `""`.) -/
def buildCmd (sumatra_exe printer_name : String) (print_settings : Option String)
    (pdf_path : String) : List String :=
  let cmd := [sumatra_exe, "-print-to", printer_name, "-silent", "-exit-on-print"]
  let cmd :=
    if print_settings.getD "" ≠ "" then cmd ++ ["-print-settings", print_settings.getD ""]
    else cmd
  cmd ++ [pdf_path]

/-- Model of `print_with_sumatra`: run the helper command through the
process oracle; `check=True` turns a non-zero exit code into
`CalledProcessError`. -/
def print_with_sumatra (run : List String → HelperResult) (sumatra_exe : String)
    (pdf_path : String) (printer_name : String) (print_settings : Option String) :
    Except PyError Unit :=
  match run (buildCmd sumatra_exe printer_name print_settings pdf_path) with
  | .exited code => if code ≠ 0 then .error (.calledProcessError code) else .ok ()
  | .raised => .error .otherException

/-- The per-file loop of `main`, returning the helper commands actually
run (in order) and one outcome per file.  Both `except` clauses only log
and continue, so every error is absorbed into the file's outcome. -/
def dispatchLoop (run : List String → HelperResult) (dry_run : Bool)
    (sumatra printer : String) (settings : Option String) :
    List String → List (List String) × List Outcome
  | [] => ([], [])
  | p :: rest =>
    let step : List (List String) × Outcome :=
      if dry_run then ([], .dryRunSkipped)
      else
        match print_with_sumatra run sumatra p printer settings with
        | .ok _ => ([buildCmd sumatra printer settings p], .printed)
        | .error (.calledProcessError c) => ([buildCmd sumatra printer settings p], .failedExit c)
        | .error .otherException => ([buildCmd sumatra printer settings p], .failedOther)
    let restR := dispatchLoop run dry_run sumatra printer settings rest
    (step.1 ++ restR.1, step.2 :: restR.2)

/-- The parsed command line of the program. -/
structure Args where
  folder : String
  recursive : Bool
  printer : Option String
  sumatra : Option String
  duplex : String
  color : String
  pages : Option String
  copies : Int
  filter : Option (List String)
  exclude : Option (List String)
  dry_run : Bool

/-- The host environment, holding the collaborators the spec treats as
external: the resolved folder's existence, its contents, the PowerShell
default-printer query (`.error` = the call raised or exited non-zero,
`.ok` = its stdout), the result of `find_sumatra(args.sumatra)`, and the
behaviour of each child process the dispatcher may start. -/
structure World where
  folderIsDir : Bool
  fs : List FSEntry
  defaultPrinterQuery : Except Unit String
  sumatraExe : Option String
  run : List String → HelperResult

/-- ASCII model of Python `str.strip()` (no arguments): drop whitespace
from both ends. -/
def pyStrip (s : String) : String :=
  String.mk (((s.data.dropWhile Char.isWhitespace).reverse.dropWhile
    Char.isWhitespace).reverse)

/-- The printer-resolution block of `main`: a truthy `--printer` wins;
otherwise the default printer is read from the PowerShell query's stripped
stdout, with any failure collapsing to `""`. -/
def resolve_printer (w : World) (a : Args) : String :=
  if a.printer.getD "" ≠ "" then a.printer.getD ""
  else
    match w.defaultPrinterQuery with
    | .ok out => pyStrip out
    | .error _ => ""

/-- Everything observable about one program run: the process exit code,
the selected candidate list, the encoded settings string, the helper
commands run, and the per-file outcomes. -/
structure RunResult where
  exitCode : Int
  selected : List FSEntry
  settings : Option String
  invocations : List (List String)
  outcomes : List Outcome
deriving DecidableEq

/-- Model of `main()` (after argument parsing): validate the folder,
resolve the printer, locate the helper, select the PDFs, encode the
settings once, then run the per-file loop.  Setup failures return exit
code 2 before any dispatch; a completed run returns 0. -/
def main_run (w : World) (a : Args) : RunResult :=
  if w.folderIsDir = false then ⟨2, [], none, [], []⟩
  else if resolve_printer w a = "" then ⟨2, [], none, [], []⟩
  else
    match w.sumatraExe with
    | none => ⟨2, [], none, [], []⟩
    | some sumatra =>
      let pdfs := list_pdfs a.folder w.fs a.recursive a.filter a.exclude
      if pdfs.isEmpty then ⟨0, [], none, [], []⟩
      else
        let settings := build_sumatra_print_settings a.duplex a.color a.pages a.copies
        let r := dispatchLoop w.run a.dry_run sumatra (resolve_printer w a) settings
          (pdfs.map (fullPath a.folder))
        ⟨0, pdfs, settings, r.1, r.2⟩

/-- A helper invocation that the per-file loop reports as failed: the
process exited non-zero (`CalledProcessError` under `check=True`) or the
call raised. -/
def isFailureRes : HelperResult → Bool
  | .exited c => c != 0
  | .raised => true

/-- Concrete world for witnesses: one PDF under the folder, helper found,
every helper run exits 1. -/
def w3 : World :=
  ⟨true, [⟨["a.pdf"], true⟩], Except.ok "HP Main", some "S", fun _ => .exited 1⟩

/-- Concrete arguments for witnesses: explicit printer, all defaults. -/
def a3 : Args :=
  ⟨"C:\\PDFs", false, some "HP", none, "default", "default", none, 1, none, none, false⟩

/-- Concrete world whose folder does not exist. -/
def w7a : World := ⟨false, [], Except.error (), none, fun _ => .exited 0⟩

/-- Concrete world with a valid setup and an empty folder. -/
def w7b : World := ⟨true, [], Except.ok "", some "S", fun _ => .exited 0⟩

/-! ## Spec-side definitions

These render the specification's wording, to be compared with the
definitions translated from the source. -/

/-- Spec side, §4.3: the tokens contributed by the `pages` option. -/
def pagesToks (pages : Option String) : List String :=
  if pages.getD "" ≠ "" then [pages.getD ""] else []

/-- Spec side, §4.3: the tokens contributed by the `duplex` option. -/
def duplexToks (d : String) : List String := (duplex_map d).toList

/-- Spec side, §4.3: the tokens contributed by the `color` option. -/
def colorToks (c : String) : List String := (color_map c).toList

/-- Spec side, §4.3: the tokens contributed by the `copies` option. -/
def copiesToks (n : Int) : List String :=
  if n ≠ 0 ∧ n > 1 then [toString n ++ "x"] else []

/-- Spec side, §4.3: join the emitted tokens with `,`; no tokens means "no
settings string" (absence), not the empty string. -/
def joinToks (toks : List String) : Option String :=
  if toks ≠ [] then some (String.intercalate "," toks) else none

/-- Spec side, §4.2: the name matches the fixed document-extension suffix
`.pdf`, case-insensitively. -/
def isPdfName (n : String) : Bool :=
  List.isSuffixOf ".pdf".data (strLower n).data

/-! ## Helper lemmas -/

theorem char_toNat_inj (a b : Char) (h : a.toNat = b.toNat) : a = b := by
  have hv : a.val = b.val := UInt32.ext h
  cases a; cases b; simp_all

theorem charListLt_irrefl (a : List Char) : charListLt a a = false := by
  induction a with
  | nil => rfl
  | cons x xs ih => simp [charListLt, ih]

theorem charListLt_trans (a b c : List Char) (hab : charListLt a b = true)
    (hbc : charListLt b c = true) : charListLt a c = true := by
  induction a generalizing b c with
  | nil =>
    cases b with
    | nil => exact absurd hab (by simp [charListLt])
    | cons y ys =>
      cases c with
      | nil => exact absurd hbc (by simp [charListLt])
      | cons z zs => rfl
  | cons x xs ih =>
    cases b with
    | nil => exact absurd hab (by simp [charListLt])
    | cons y ys =>
      cases c with
      | nil => exact absurd hbc (by simp [charListLt])
      | cons z zs =>
        simp only [charListLt] at hab hbc ⊢
        split_ifs at hab hbc ⊢ <;>
          first
            | rfl
            | omega
            | exact ih ys zs hab hbc

theorem charListLt_tie (a b : List Char) (h1 : charListLt a b = false)
    (h2 : charListLt b a = false) : a = b := by
  induction a generalizing b with
  | nil =>
    cases b with
    | nil => rfl
    | cons y ys => exact absurd h1 (by simp [charListLt])
  | cons x xs ih =>
    cases b with
    | nil => exact absurd h2 (by simp [charListLt])
    | cons y ys =>
      simp only [charListLt] at h1 h2
      by_cases hxy : x.toNat < y.toNat
      · rw [if_pos hxy] at h1
        exact absurd h1 (by simp)
      · by_cases hyx : y.toNat < x.toNat
        · rw [if_pos hyx] at h2
          exact absurd h2 (by simp)
        · rw [if_neg hxy, if_neg hyx] at h1
          rw [if_neg hyx, if_neg hxy] at h2
          have hx : x = y := char_toNat_inj _ _ (by omega)
          rw [hx, ih ys h1 h2]

theorem strListLe_total (a b : List String) :
    strListLe a b = true ∨ strListLe b a = true := by
  induction a generalizing b with
  | nil => exact Or.inl rfl
  | cons x xs ih =>
    cases b with
    | nil => exact Or.inr rfl
    | cons y ys =>
      cases hxy : charListLt x.data y.data
      · cases hyx : charListLt y.data x.data
        · rcases ih ys with h | h
          · exact Or.inl (by simp [strListLe, hxy, hyx, h])
          · exact Or.inr (by simp [strListLe, hxy, hyx, h])
        · exact Or.inr (by simp [strListLe, hyx])
      · exact Or.inl (by simp [strListLe, hxy])

theorem strListLe_trans (a b c : List String) (hab : strListLe a b = true)
    (hbc : strListLe b c = true) : strListLe a c = true := by
  induction a generalizing b c with
  | nil => rfl
  | cons x xs ih =>
    cases b with
    | nil => exact absurd hab (by simp [strListLe])
    | cons y ys =>
      cases c with
      | nil => exact absurd hbc (by simp [strListLe])
      | cons z zs =>
        simp only [strListLe] at hab hbc ⊢
        by_cases hxy : charListLt x.data y.data = true
        · by_cases hyz : charListLt y.data z.data = true
          · rw [if_pos (charListLt_trans _ _ _ hxy hyz)]
          · by_cases hzy : charListLt z.data y.data = true
            · rw [if_neg hyz, if_pos hzy] at hbc
              exact absurd hbc (by simp)
            · have heq : y.data = z.data :=
                charListLt_tie _ _ (by simpa using hyz) (by simpa using hzy)
              rw [if_pos (by rw [← heq]; exact hxy)]
        · by_cases hyx : charListLt y.data x.data = true
          · rw [if_neg hxy, if_pos hyx] at hab
            exact absurd hab (by simp)
          · have hxyeq : x.data = y.data :=
              charListLt_tie _ _ (by simpa using hxy) (by simpa using hyx)
            rw [if_neg hxy, if_neg hyx] at hab
            by_cases hyz : charListLt y.data z.data = true
            · rw [if_pos (by rw [hxyeq]; exact hyz)]
            · by_cases hzy : charListLt z.data y.data = true
              · rw [if_neg hyz, if_pos hzy] at hbc
                exact absurd hbc (by simp)
              · have hyzeq : y.data = z.data :=
                  charListLt_tie _ _ (by simpa using hyz) (by simpa using hzy)
                rw [if_neg hyz, if_neg hzy] at hbc
                have hn1 : ¬ charListLt x.data z.data = true := by
                  rw [hxyeq, hyzeq]; simp [charListLt_irrefl]
                have hn2 : ¬ charListLt z.data x.data = true := by
                  rw [hxyeq, hyzeq]; simp [charListLt_irrefl]
                rw [if_neg hn1, if_neg hn2]
                exact ih ys zs hab hbc

theorem pathLe_total (x y : String) : pathLe x y = true ∨ pathLe y x = true :=
  strListLe_total _ _

theorem pathLe_trans (x y z : String) (h1 : pathLe x y = true)
    (h2 : pathLe y z = true) : pathLe x z = true :=
  strListLe_trans _ _ _ h1 h2

theorem dispatchLoop_dry (run : List String → HelperResult) (s p : String)
    (st : Option String) (ps : List String) :
    dispatchLoop run true s p st ps = ([], ps.map (fun _ => Outcome.dryRunSkipped)) := by
  induction ps with
  | nil => rfl
  | cons q qs ih => simp [dispatchLoop, ih]

theorem dispatchLoop_invocations (run : List String → HelperResult) (s p : String)
    (st : Option String) (ps : List String) :
    (dispatchLoop run false s p st ps).1 = ps.map (buildCmd s p st) := by
  induction ps with
  | nil => rfl
  | cons q qs ih =>
    cases h : print_with_sumatra run s q p st with
    | ok v => simp [dispatchLoop, h, ih]
    | error e => cases e <;> simp [dispatchLoop, h, ih]

theorem dispatchLoop_outcomes_length (run : List String → HelperResult) (d : Bool)
    (s p : String) (st : Option String) (ps : List String) :
    (dispatchLoop run d s p st ps).2.length = ps.length := by
  induction ps with
  | nil => rfl
  | cons q qs ih =>
    cases d
    · cases h : print_with_sumatra run s q p st with
      | ok v => simp [dispatchLoop, h, ih]
      | error e => cases e <;> simp [dispatchLoop, h, ih]
    · simp [dispatchLoop, ih]

theorem tokMatch_star (ts : List GlobTok) (cs : List Char) :
    tokMatch (.star :: ts) cs = true ↔ ∃ l, l <:+ cs ∧ tokMatch ts l = true := by
  simp [tokMatch, List.any_eq_true, List.mem_tails]

theorem tokMatch_lits (s l : List Char) :
    tokMatch (s.map GlobTok.lit) l = true ↔ l = s := by
  induction s generalizing l with
  | nil => cases l <;> simp [tokMatch]
  | cons c cs ih =>
    cases l with
    | nil => simp [tokMatch]
    | cons d ds =>
      simp only [List.map_cons, tokMatch, Bool.and_eq_true, beq_iff_eq, ih,
        List.cons.injEq]
      exact and_congr_left (fun _ => eq_comm)

theorem map_eq_target_iff (f g : Char → Char) (target : List Char)
    (h : ∀ c ch, ch ∈ target → (f c = ch ↔ g c = ch)) (l : List Char) :
    l.map f = target ↔ l.map g = target := by
  induction l generalizing target with
  | nil => simp
  | cons c t ih =>
    cases target with
    | nil => simp
    | cons ch tg =>
      simp only [List.map_cons, List.cons.injEq]
      have hhd := h c ch (by simp)
      have htl := ih tg (fun c2 ch2 hm => h c2 ch2 (by simp [hm]))
      constructor
      · rintro ⟨h1, h2⟩; exact ⟨hhd.1 h1, htl.1 h2⟩
      · rintro ⟨h1, h2⟩; exact ⟨hhd.2 h1, htl.2 h2⟩

theorem suffix_map_iff (f g : Char → Char) (target : List Char)
    (h : ∀ c ch, ch ∈ target → (f c = ch ↔ g c = ch)) (l : List Char) :
    target <:+ l.map f ↔ target <:+ l.map g := by
  induction l with
  | nil => simp
  | cons c t ih =>
    simp only [List.map_cons, List.suffix_cons_iff]
    refine or_congr ?_ ih
    cases target with
    | nil => simp
    | cons ch tg =>
      simp only [List.cons.injEq]
      have hhd := h c ch (by simp)
      have htl := map_eq_target_iff f g tg (fun c2 ch2 hm => h c2 ch2 (by simp [hm])) t
      constructor
      · rintro ⟨h1, h2⟩; exact ⟨h1.symm ▸ (hhd.1 h1.symm).symm, (htl.1 h2.symm).symm⟩
      · rintro ⟨h1, h2⟩; exact ⟨(hhd.2 h1.symm).symm, (htl.2 h2.symm).symm⟩

theorem normcase_pdf_suffix (n : String) :
    (['.', 'p', 'd', 'f'] <:+ (normcase n).data) ↔
      (['.', 'p', 'd', 'f'] <:+ (strLower n).data) := by
  have h1 : (normcase n).data = n.data.map (fun c => if c = '/' then '\\' else c.toLower) := rfl
  have h2 : (strLower n).data = n.data.map Char.toLower := rfl
  rw [h1, h2]
  apply suffix_map_iff
  intro c ch hm
  by_cases hc : c = '/'
  · subst hc
    have hl : '/'.toLower = '/' := by decide
    simp only [if_pos rfl, hl]
    fin_cases hm <;> simp
  · simp [hc]

theorem fnmatch_pdf (n : String) : fnmatch n "*.pdf" = true ↔ isPdfName n = true := by
  have hparse : parseGlob (normcase "*.pdf").data =
      GlobTok.star :: (['.', 'p', 'd', 'f'].map GlobTok.lit) := rfl
  rw [fnmatch, hparse, tokMatch_star]
  simp only [tokMatch_lits, exists_eq_right]
  rw [isPdfName, List.isSuffixOf_iff_suffix,
    show (".pdf" : String).data = ['.', 'p', 'd', 'f'] from rfl]
  exact normcase_pdf_suffix n

/-! ## The claims -/

/-- Claim C1: for every choice of options, the settings tokens emitted by
`build_sumatra_print_settings` appear in the fixed order pages, duplex,
color, copies, joined with `","`; in particular duplex `long-edge`, color
`mono`, copies `3`, pages `"1,3"` encode exactly to
`"1,3,duplexlong,monochrome,3x"`. -/
theorem encode_token_order :
    (∀ (duplex color : String) (pages : Option String) (copies : Int),
      build_sumatra_print_settings duplex color pages copies =
        joinToks (pagesToks pages ++ duplexToks duplex ++ colorToks color ++
          copiesToks copies)) ∧
    build_sumatra_print_settings "long-edge" "mono" (some "1,3") 3 =
      some "1,3,duplexlong,monochrome,3x" := by
  constructor
  · intro d c p n
    simp only [build_sumatra_print_settings, joinToks, pagesToks, duplexToks,
      colorToks, copiesToks]
    cases duplex_map d <;> cases color_map c <;> split_ifs <;> simp_all
  · decide

/-- Claim C4: encoding with pages unset, duplex and color at `default` and
copies `1` yields the distinguished absent value `none`, which is not the
empty-string override `some ""`. -/
theorem encode_default_none :
    build_sumatra_print_settings "default" "default" none 1 = none ∧
    build_sumatra_print_settings "default" "default" none 1 ≠ some "" := by
  decide

/-- Claim C8: for every color, pages and copies, encoding duplex `tumble`
gives exactly the same result as duplex `short-edge`; both map to the
single token `"duplexshort"`. -/
theorem encode_tumble_eq_short_edge :
    (∀ (color : String) (pages : Option String) (copies : Int),
      build_sumatra_print_settings "tumble" color pages copies =
        build_sumatra_print_settings "short-edge" color pages copies) ∧
    duplex_map "tumble" = some "duplexshort" ∧
    duplex_map "short-edge" = some "duplexshort" := by
  refine ⟨fun c p n => ?_, by decide, by decide⟩
  simp only [build_sumatra_print_settings]
  rw [show duplex_map "tumble" = duplex_map "short-edge" from by decide]

/-- Claim C10: the encoder is total outside its documented domain — copies
at most 1 (including 0 and negatives) emits no copies token, a duplex or
color string outside the documented enumerations emits no duplex/color
token, and no error is possible (the encoder is a total function). -/
theorem encode_total_outside_domain (d c : String) (p : Option String) (n : Int) :
    (n ≤ 1 → copiesToks n = [] ∧
      build_sumatra_print_settings d c p n = build_sumatra_print_settings d c p 1) ∧
    (d ∉ ["default", "simplex", "duplex", "long-edge", "short-edge", "tumble"] →
      duplex_map d = none ∧
      build_sumatra_print_settings d c p n =
        build_sumatra_print_settings "default" c p n) ∧
    (c ∉ ["default", "color", "mono"] →
      color_map c = none ∧
      build_sumatra_print_settings d c p n =
        build_sumatra_print_settings d "default" p n) := by
  refine ⟨fun hn => ⟨?_, ?_⟩, fun hd => ?_, fun hc => ?_⟩
  · have h : ¬(n ≠ 0 ∧ n > 1) := by omega
    simp [copiesToks, h]
  · have h1 : ¬(n ≠ 0 ∧ n > 1) := by omega
    have h2 : ¬((1 : Int) ≠ 0 ∧ (1 : Int) > 1) := by omega
    simp only [build_sumatra_print_settings, if_neg h1, if_neg h2]
  · simp only [List.mem_cons, List.not_mem_nil, or_false] at hd
    push_neg at hd
    obtain ⟨h1, h2, h3, h4, h5, h6⟩ := hd
    have h : duplex_map d = none := by simp [duplex_map, h1, h2, h3, h4, h5, h6]
    refine ⟨h, ?_⟩
    simp only [build_sumatra_print_settings, h,
      show duplex_map "default" = none from by decide]
  · simp only [List.mem_cons, List.not_mem_nil, or_false] at hc
    push_neg at hc
    obtain ⟨h1, h2, h3⟩ := hc
    have h : color_map c = none := by simp [color_map, h1, h2, h3]
    refine ⟨h, ?_⟩
    simp only [build_sumatra_print_settings, h,
      show color_map "default" = none from by decide]

/-- Witness for C10 at copies `-3`, duplex `"weird"`, color `"sepia"`. -/
theorem encode_total_outside_domain_witness :
    (copiesToks (-3) = [] ∧
      build_sumatra_print_settings "weird" "sepia" none (-3) =
        build_sumatra_print_settings "weird" "sepia" none 1) ∧
    (duplex_map "weird" = none ∧
      build_sumatra_print_settings "weird" "sepia" none (-3) =
        build_sumatra_print_settings "default" "sepia" none (-3)) ∧
    (color_map "sepia" = none ∧
      build_sumatra_print_settings "weird" "sepia" none (-3) =
        build_sumatra_print_settings "weird" "default" none (-3)) := by
  obtain ⟨ha, hb, hc⟩ := encode_total_outside_domain "weird" "sepia" none (-3)
  exact ⟨ha (by decide), hb (by decide), hc (by decide)⟩

/-- Claim C5: for all folders, directory contents, recursion flags and
filter sets, `list_pdfs` is deterministic (two runs over identical inputs
return the identical list) and its result is ordered ascending by full
path in the host's lexicographic path order. -/
theorem list_pdfs_deterministic_sorted (folder : String) (fs : List FSEntry)
    (recursive : Bool) (inc exc : Option (List String)) :
    list_pdfs folder fs recursive inc exc = list_pdfs folder fs recursive inc exc ∧
    (list_pdfs folder fs recursive inc exc).Pairwise
      (fun a b => pathLe (fullPath folder a) (fullPath folder b) = true) := by
  refine ⟨rfl, ?_⟩
  have hs : (List.insertionSort
      (fun a b => pathLe (fullPath folder a) (fullPath folder b) = true)
      (globPdf fs recursive)).Pairwise
      (fun a b => pathLe (fullPath folder a) (fullPath folder b) = true) := by
    haveI : IsTotal FSEntry
        (fun a b => pathLe (fullPath folder a) (fullPath folder b) = true) :=
      ⟨fun a b => pathLe_total _ _⟩
    haveI : IsTrans FSEntry
        (fun a b => pathLe (fullPath folder a) (fullPath folder b) = true) :=
      ⟨fun a b c => pathLe_trans _ _ _⟩
    exact List.sorted_insertionSort _ _
  simp only [list_pdfs]
  split_ifs <;>
    first
      | exact hs.filter _
      | exact (hs.filter _).filter _
      | exact ((hs.filter _).filter _).filter _

/-- Claim C2: for every folder, directory contents, recursion flag and
filter set, a file whose base name matches at least one exclude pattern is
absent from the selection result, even when it also matches an include
pattern. -/
theorem list_pdfs_exclude_wins (folder : String) (fs : List FSEntry)
    (recursive : Bool) (inc exc : Option (List String)) (e : FSEntry)
    (h : matches_any e (exc.getD []) = true) :
    e ∉ list_pdfs folder fs recursive inc exc := by
  intro hmem
  have hne : (exc.getD []).isEmpty = false := by
    cases hE : exc.getD [] with
    | nil => rw [hE] at h; simp [matches_any] at h
    | cons q qs => simp [hE]
  simp only [list_pdfs, hne, Bool.false_eq_true, if_false] at hmem
  have := (List.mem_filter.mp hmem).2
  rw [h] at this
  simp at this

/-- Witness for C2: `b_draft.pdf` matches the exclude pattern
`*_draft.pdf` and is therefore not selected, although it also matches the
include pattern `b_*`. -/
theorem list_pdfs_exclude_wins_witness :
    matches_any ⟨["b_draft.pdf"], true⟩ ((some ["*_draft.pdf"]).getD []) = true ∧
    matches_any ⟨["b_draft.pdf"], true⟩ ((some ["b_*"]).getD []) = true ∧
    ⟨["b_draft.pdf"], true⟩ ∉
      list_pdfs "C:\\PDFs" [⟨["b_draft.pdf"], true⟩, ⟨["a_invoice.pdf"], true⟩]
        false (some ["b_*"]) (some ["*_draft.pdf"]) :=
  ⟨by decide, by decide,
    list_pdfs_exclude_wins "C:\\PDFs"
      [⟨["b_draft.pdf"], true⟩, ⟨["a_invoice.pdf"], true⟩] false
      (some ["b_*"]) (some ["*_draft.pdf"]) ⟨["b_draft.pdf"], true⟩ (by decide)⟩

/-- Claim C6: file discovery selects exactly the files under the root
(immediate children when not recursive, the full subtree when recursive)
whose name ends with `.pdf` case-insensitively; in particular a name such
as `REPORT.PDF` is matched. -/
theorem list_pdfs_discovery (folder : String) (fs : List FSEntry)
    (recursive : Bool) (e : FSEntry) :
    (e ∈ list_pdfs folder fs recursive none none ↔
      e ∈ fs ∧ e.isFile = true ∧ isPdfName (baseName e) = true ∧
        (if recursive then e.parts ≠ [] else e.parts.length = 1)) ∧
    fnmatch "REPORT.PDF" "*.pdf" = true := by
  constructor
  · simp only [list_pdfs, Option.getD_none, List.isEmpty_nil, if_true]
    rw [List.mem_filter, List.mem_insertionSort]
    cases recursive with
    | false =>
      simp only [globPdf, Bool.false_eq_true, if_false, List.mem_filter,
        Bool.and_eq_true, beq_iff_eq, if_false]
      rw [show (fnmatch (baseName e) "*.pdf" = true) ↔ (isPdfName (baseName e) = true) from
        fnmatch_pdf _]
      tauto
    | true =>
      simp only [globPdf, if_true, List.mem_filter, Bool.and_eq_true,
        Bool.not_eq_true', List.isEmpty_eq_false, if_true]
      rw [show (fnmatch (baseName e) "*.pdf" = true) ↔ (isPdfName (baseName e) = true) from
        fnmatch_pdf _]
      tauto
  · decide

/-- Claim C3: when setup succeeds and the run is not a dry run, every
selected file is dispatched in list order with the fixed helper command —
even when the helper run for some file `k` fails — the failure never
propagates out of the per-file loop (there is exactly one outcome per
file) and the completed run's exit status is 0. -/
theorem dispatch_continues_after_failure (w : World) (a : Args) (sumatra : String)
    (hdir : w.folderIsDir = true) (hpr : resolve_printer w a ≠ "")
    (hsum : w.sumatraExe = some sumatra) (hdry : a.dry_run = false)
    (k : Nat) (hk : k < (main_run w a).selected.length)
    (hfail : isFailureRes (w.run (buildCmd sumatra (resolve_printer w a)
      (build_sumatra_print_settings a.duplex a.color a.pages a.copies)
      (fullPath a.folder ((main_run w a).selected.get ⟨k, hk⟩)))) = true) :
    (main_run w a).invocations =
      (main_run w a).selected.map (fun e => buildCmd sumatra (resolve_printer w a)
        (build_sumatra_print_settings a.duplex a.color a.pages a.copies)
        (fullPath a.folder e)) ∧
    (main_run w a).outcomes.length = (main_run w a).selected.length ∧
    (main_run w a).exitCode = 0 := by
  cases hpdf : (list_pdfs a.folder w.fs a.recursive a.filter a.exclude).isEmpty
  · have hm : main_run w a =
        ⟨0, list_pdfs a.folder w.fs a.recursive a.filter a.exclude,
          build_sumatra_print_settings a.duplex a.color a.pages a.copies,
          (dispatchLoop w.run a.dry_run sumatra (resolve_printer w a)
            (build_sumatra_print_settings a.duplex a.color a.pages a.copies)
            ((list_pdfs a.folder w.fs a.recursive a.filter a.exclude).map
              (fullPath a.folder))).1,
          (dispatchLoop w.run a.dry_run sumatra (resolve_printer w a)
            (build_sumatra_print_settings a.duplex a.color a.pages a.copies)
            ((list_pdfs a.folder w.fs a.recursive a.filter a.exclude).map
              (fullPath a.folder))).2⟩ := by
      simp [main_run, hdir, hsum, hpr, hpdf]
    rw [hm, hdry]
    refine ⟨?_, ?_, rfl⟩
    · rw [dispatchLoop_invocations, List.map_map]
      rfl
    · rw [dispatchLoop_outcomes_length, List.length_map]
  · have hm : main_run w a = ⟨0, [], none, [], []⟩ := by
      simp [main_run, hdir, hsum, hpr, hpdf]
    rw [hm] at hk
    simp at hk

/-- Witness for C3: a single-file run whose helper exits 1 still dispatches
the file, reports one outcome, and completes with exit code 0. -/
theorem dispatch_continues_after_failure_witness :
    (main_run w3 a3).invocations =
      (main_run w3 a3).selected.map (fun e => buildCmd "S" (resolve_printer w3 a3)
        (build_sumatra_print_settings a3.duplex a3.color a3.pages a3.copies)
        (fullPath a3.folder e)) ∧
    (main_run w3 a3).outcomes.length = (main_run w3 a3).selected.length ∧
    (main_run w3 a3).exitCode = 0 :=
  dispatch_continues_after_failure w3 a3 "S" rfl (by decide) rfl rfl 0 (by decide)
    (by decide)

/-- Claim C7: if setup fails — the folder is not a directory, no printer
name is supplied and the default printer cannot be resolved, or the helper
cannot be located — the process exits with code 2 before any file is
dispatched; otherwise the completed run exits 0 even with per-file
failures. -/
theorem setup_failure_exits_2 (w : World) (a : Args) :
    ((w.folderIsDir = false ∨ (a.printer = none ∧ resolve_printer w a = "") ∨
        w.sumatraExe = none) →
      (main_run w a).exitCode = 2 ∧ (main_run w a).invocations = [] ∧
        (main_run w a).outcomes = []) ∧
    (w.folderIsDir = true → resolve_printer w a ≠ "" → w.sumatraExe ≠ none →
      (main_run w a).exitCode = 0) := by
  constructor
  · rintro (h | ⟨hp, h⟩ | h)
    · simp [main_run, h]
    · cases hf : w.folderIsDir
      · simp [main_run, hf]
      · simp [main_run, hf, h]
    · cases hf : w.folderIsDir
      · simp [main_run, hf]
      · by_cases hp : resolve_printer w a = ""
        · simp [main_run, hf, hp]
        · simp [main_run, hf, hp, h]
  · intro hf hp hs
    cases hsum : w.sumatraExe with
    | none => exact absurd hsum hs
    | some s =>
      cases hpdf : (list_pdfs a.folder w.fs a.recursive a.filter a.exclude).isEmpty <;>
        simp [main_run, hf, hp, hsum, hpdf]

/-- Witness for C7: a missing folder exits 2 with no dispatch; a valid
setup (with nothing to print) exits 0. -/
theorem setup_failure_exits_2_witness :
    ((main_run w7a a3).exitCode = 2 ∧ (main_run w7a a3).invocations = [] ∧
      (main_run w7a a3).outcomes = []) ∧
    (main_run w7b a3).exitCode = 0 :=
  ⟨(setup_failure_exits_2 w7a a3).1 (Or.inl rfl),
    (setup_failure_exits_2 w7b a3).2 rfl (by decide) (by decide)⟩

/-- Claim C9: with the dry-run flag set the helper is never invoked, there
is exactly one skipped outcome per selected file, and the selection and
encoding results are identical to those of the non-dry run on the same
inputs. -/
theorem dry_run_no_dispatch (w : World) (a : Args) :
    (main_run w { a with dry_run := true }).invocations = [] ∧
    (main_run w { a with dry_run := true }).outcomes =
      (main_run w { a with dry_run := true }).selected.map
        (fun _ => Outcome.dryRunSkipped) ∧
    (main_run w { a with dry_run := true }).selected =
      (main_run w { a with dry_run := false }).selected ∧
    (main_run w { a with dry_run := true }).settings =
      (main_run w { a with dry_run := false }).settings := by
  have hprx : resolve_printer w { a with dry_run := true } = resolve_printer w a := rfl
  have hpry : resolve_printer w { a with dry_run := false } = resolve_printer w a := rfl
  cases hf : w.folderIsDir with
  | false => simp [main_run, hf]
  | true =>
    by_cases hp : resolve_printer w a = ""
    · simp [main_run, hf, hprx, hpry, hp]
    · cases hsum : w.sumatraExe with
      | none => simp [main_run, hf, hprx, hpry, hp, hsum]
      | some s =>
        cases hpdf : (list_pdfs a.folder w.fs a.recursive a.filter a.exclude).isEmpty <;>
          simp [main_run, hf, hprx, hpry, hp, hsum, hpdf, dispatchLoop_dry,
            List.map_map, Function.comp_def]

